import Mathlib

/-!
Shallow embedding of the exam session core of the Nekomcq application
(`src/app.py`): the handlers `exam_setup`, `exam_question` and `exam_result`,
together with the session dictionary they thread through requests.

Modelling choices:
* The question bank (`mcqs` table) is a list of `MCQ` records; `SELECT id FROM
  mcqs WHERE subject_id IN (...)` is a list filter, `WHERE id IN (...)` and
  `WHERE id = ?` likewise.  Rows come back in storage order.
* `random.shuffle` mutates `ids` in place using the global PRNG; it is modelled
  by an explicit `shuffle : List Nat → List Nat` parameter, constrained to be a
  permutation in theorems that need it.
* Python's `round` is modelled as exact round-half-to-even on `ℚ`
  (`roundHalfEven`); the source divides machine floats, the model divides the
  corresponding rationals.
* Python slices `ids[:limit]` (with a possibly negative `limit`) are modelled
  by `pySlice`.
* The Flask session value `session["exam"]` is an `Option ExamState`; the
  per-handler functions take the stored session and return the updated one.
* The answers dictionary keys are `str(question_id)`, exactly as in the source;
  `dictInsert`/`dictGet` model Python dict assignment and `.get`.
* Rendering payloads (templates, the `review` list) are represented only by
  which response is produced, since no verified property mentions their text.
-/

/-- A row of the `mcqs` table (`db.py`: columns `id, subject_id, question,
option_a..option_d, correct_option`; `id` is the integer primary key). -/
structure MCQ where
  id : Nat
  subject_id : Nat
  question : String
  option_a : String
  option_b : String
  option_c : String
  option_d : String
  correct_option : String
deriving DecidableEq, Repr

/-- The value stored at `session["exam"]` by `exam_setup`
(`app.py` lines 363-368). -/
structure ExamState where
  question_ids : List Nat
  start_time : Nat
  time_limit : Int
  answers : List (String × Option String)
deriving DecidableEq, Repr

/-- A row inserted into `exam_attempts` by `exam_result`
(`app.py` lines 444-448); the user id column is elided. -/
structure ExamAttempt where
  total_questions : Nat
  correct_count : Nat
  incorrect_count : Int
  accuracy : Int
deriving DecidableEq, Repr

/-- Python dict assignment `m[k] = v`: replaces the binding of `k` if present,
otherwise appends it. -/
def dictInsert {α : Type} : List (String × α) → String → α → List (String × α)
  | [], k, v => [(k, v)]
  | (k₁, v₁) :: rest, k, v =>
      if k₁ = k then (k, v) :: rest else (k₁, v₁) :: dictInsert rest k v

/-- Python `m.get(k)` (as `Option`): the value bound to `k`, if any. -/
def dictGet {α : Type} : List (String × α) → String → Option α
  | [], _ => none
  | (k₁, v₁) :: rest, k => if k₁ = k then some v₁ else dictGet rest k

/-- Python slice `l[:n]`, where `n` may be negative: a nonnegative `n` keeps
the first `n` elements, a negative `n` drops the last `-n`. -/
def pySlice {α : Type} (l : List α) (n : Int) : List α :=
  if 0 ≤ n then l.take n.toNat else l.take (l.length - (-n).toNat)

/-- Python 3 `round` to an integer on an exact rational: round half to even. -/
def roundHalfEven (q : ℚ) : Int :=
  if q - Int.floor q < 1/2 then Int.floor q
  else if 1/2 < q - Int.floor q then Int.floor q + 1
  else if Int.floor q % 2 = 0 then Int.floor q else Int.floor q + 1

/-- The parsed POST form of `exam_setup`: `subjects` is
`request.form.getlist("subjects")`, `mode` defaults to `"random"`, `count`
is `int(request.form.get("count", 10))`, and `time_limit` is
`int(request.form.get("time_limit", 15))` (`app.py` lines 341-344). -/
structure SetupForm where
  subjects : List Nat
  mode : String
  count : Int
  time_limit : Int

/-- Responses `exam_setup` can produce on POST: the flash-and-redirect back to
setup when no question matches, or the redirect to `exam_question(0)`. -/
inductive SetupResp
  | setupError
  | startExam
deriving DecidableEq, Repr

/-- The question rows matching the subject filter (`app.py` lines 345-353):
all of `mcqs` when no subject is selected, else the rows whose `subject_id`
is among the selected ones. -/
def eligibleRows (selected : List Nat) (bank : List MCQ) : List MCQ :=
  if selected = [] then bank
  else bank.filter (fun m => decide (m.subject_id ∈ selected))

/-- The eligible question identifiers: `ids = [row[0] for row in question_rows]`
(`app.py` line 354). -/
def eligibleIds (selected : List Nat) (bank : List MCQ) : List Nat :=
  (eligibleRows selected bank).map (fun m => m.id)

/-- The POST branch of `exam_setup` (`app.py` lines 340-369).  Returns the
response together with the new value of `session["exam"]`; `now` is
`int(time.time())` and `shuffle` stands for `random.shuffle` at the current
PRNG state.  On the no-questions error the session is left unchanged. -/
def exam_setup (form : SetupForm) (bank : List MCQ)
    (shuffle : List Nat → List Nat) (now : Nat) (sess : Option ExamState) :
    SetupResp × Option ExamState :=
  let limit : Int := min form.count 100
  let time_limit : Int := max form.time_limit 5
  let ids := eligibleIds form.subjects bank
  if ids = [] then (SetupResp.setupError, sess)
  else
    let shuffled := if form.mode = "progress" then shuffle ids else shuffle ids
    let selected_ids := pySlice shuffled limit
    (SetupResp.startExam,
      some { question_ids := selected_ids
             start_time := now
             time_limit := time_limit * 60
             answers := [] })

/-- The POST form of `exam_question`: the optional `answer` field and which of
the `next` / `prev` / `submit` keys are present (`app.py` lines 382-390). -/
structure QForm where
  answer : Option String
  has_next : Bool
  has_prev : Bool
  has_submit : Bool

/-- Responses `exam_question` can produce: redirect to setup, redirect to the
result page, redirect to another index, or render the question at an index. -/
inductive QResp
  | toSetup
  | toResult
  | toQuestion (i : Int)
  | renderQuestion (i : Int)
deriving DecidableEq, Repr

/-- The handler `exam_question` (`app.py` lines 372-404).  Takes the stored
session, the route index, whether the request is a POST, the form, and the
question bank; returns the response and the new session value. -/
def exam_question (sess : Option ExamState) (index : Int) (isPost : Bool)
    (form : QForm) (bank : List MCQ) : QResp × Option ExamState :=
  match sess with
  | none => (QResp.toSetup, none)
  | some exam =>
    let question_ids := exam.question_ids
    if index < 0 ∨ (question_ids.length : Int) ≤ index then
      (QResp.toResult, some exam)
    else
      let qid := question_ids.getD index.toNat 0
      if isPost then
        let exam' := { exam with
          answers := dictInsert exam.answers (toString qid) form.answer }
        if form.has_next then (QResp.toQuestion (index + 1), some exam')
        else if form.has_prev then (QResp.toQuestion (index - 1), some exam')
        else if form.has_submit then (QResp.toResult, some exam')
        else if bank.filter (fun m => decide (m.id = qid)) = [] then
          (QResp.toResult, some exam')
        else (QResp.renderQuestion index, some exam')
      else
        if bank.filter (fun m => decide (m.id = qid)) = [] then
          (QResp.toResult, some exam)
        else (QResp.renderQuestion index, some exam)

/-- Responses `exam_result` can produce: redirect to the dashboard, or render
the scored result page. -/
inductive RResp
  | toDashboard
  | renderResult
deriving DecidableEq, Repr

/-- One fetched row's correctness test in `exam_result` (`app.py` lines
425-426): `selected = answers.get(str(row[0]))`, then
`is_correct = selected == row[6]` — a stored `None` or a missing key never
equals the (non-null) correct label. -/
def isCorrectRow (answers : List (String × Option String)) (row : MCQ) : Bool :=
  decide (Option.join (dictGet answers (toString row.id)) = some row.correct_option)

/-- The handler `exam_result` (`app.py` lines 406-456).  `session.pop("exam")`
always clears the session; the handler returns the response, the new session
value (always `none`), and the `exam_attempts` row it inserts, if any. -/
def exam_result (sess : Option ExamState) (bank : List MCQ) :
    RResp × Option ExamState × Option ExamAttempt :=
  match sess with
  | none => (RResp.toDashboard, none, none)
  | some exam =>
    let question_ids := exam.question_ids
    let answers := exam.answers
    if question_ids = [] then (RResp.toDashboard, none, none)
    else
      let rows := bank.filter (fun m => decide (m.id ∈ question_ids))
      let correct := rows.countP (fun row => isCorrectRow answers row)
      let total := question_ids.length
      let incorrect : Int := (total : Int) - (correct : Int)
      let accuracy : Int :=
        roundHalfEven (((correct : ℚ) / ((max total 1 : Nat) : ℚ)) * 100)
      (RResp.renderResult, none,
        some { total_questions := total
               correct_count := correct
               incorrect_count := incorrect
               accuracy := accuracy })

/-! ### Helper lemmas about the embedded primitives -/

theorem dictGet_dictInsert_self {α : Type} (m : List (String × α)) (k : String)
    (v : α) : dictGet (dictInsert m k v) k = some v := by
  induction m with
  | nil => simp [dictInsert, dictGet]
  | cons hd tl ih =>
    obtain ⟨k₁, v₁⟩ := hd
    by_cases h : k₁ = k
    · simp [dictInsert, dictGet, h]
    · simp [dictInsert, dictGet, h, ih]

theorem roundHalfEven_floor_le (q : ℚ) : Int.floor q ≤ roundHalfEven q := by
  unfold roundHalfEven
  split_ifs <;> omega

theorem roundHalfEven_nonneg (q : ℚ) (h : 0 ≤ q) : 0 ≤ roundHalfEven q :=
  le_trans (Int.floor_nonneg.mpr h) (roundHalfEven_floor_le q)

theorem roundHalfEven_le_of_le (q : ℚ) (n : Int) (h : q ≤ n) :
    roundHalfEven q ≤ n := by
  have hf : Int.floor q ≤ n := by
    have := Int.floor_mono h
    rwa [Int.floor_intCast] at this
  have hlt : Int.floor q ≠ n → Int.floor q + 1 ≤ n := fun hne => by omega
  unfold roundHalfEven
  split_ifs with h1 h2 h3
  · exact hf
  · refine hlt fun he => ?_
    rw [he] at h2
    have : q - (n : ℚ) ≤ 0 := by linarith
    linarith
  · exact hf
  · refine hlt fun he => ?_
    rw [he] at h1 h2
    have : q - (n : ℚ) ≤ 0 := by linarith
    linarith

theorem roundHalfEven_eq_of_lt_half (q : ℚ) (n : Int) (hf : Int.floor q = n)
    (hr : q - (n : ℚ) < 1/2) : roundHalfEven q = n := by
  unfold roundHalfEven
  rw [hf]
  rw [if_pos hr]

theorem roundHalfEven_eq_add_one_of_half_lt (q : ℚ) (n : Int)
    (hf : Int.floor q = n) (hr : 1/2 < q - (n : ℚ)) :
    roundHalfEven q = n + 1 := by
  unfold roundHalfEven
  rw [hf]
  rw [if_neg (by linarith), if_pos hr]

theorem exam_question_post_state (exam : ExamState) (index : Int)
    (form : QForm) (bank : List MCQ)
    (h0 : 0 ≤ index) (h1 : index < (exam.question_ids.length : Int)) :
    (exam_question (some exam) index true form bank).2 =
      some { exam with
        answers := dictInsert exam.answers
          (toString (exam.question_ids.getD index.toNat 0)) form.answer } := by
  simp only [exam_question]
  rw [if_neg (by push_neg; exact ⟨h0, h1⟩)]
  split_ifs <;> simp_all

/-! ### Claim theorems -/

/-- C4: for every exam session and every index outside `[0, len(questionOrder))`
— including `prev` from index 0 (yielding -1) and `next` from the last index —
`exam_question` redirects to `exam_result` (terminal/scoring state) with the
session unchanged, rather than raising an error. -/
theorem exam_question_out_of_range_redirects_to_result (exam : ExamState)
    (index : Int) (isPost : Bool) (form : QForm) (bank : List MCQ)
    (h : index < 0 ∨ (exam.question_ids.length : Int) ≤ index) :
    exam_question (some exam) index isPost form bank =
      (QResp.toResult, some exam) := by
  simp only [exam_question]
  rw [if_pos h]

/-- Witness for C4: navigating `prev` from index 0 lands on index -1, which
redirects to the result route. -/
theorem exam_question_out_of_range_redirects_to_result_witness :
    ((-1 : Int) < 0 ∨
      (((ExamState.mk [7] 0 300 []).question_ids.length : Int) ≤ -1)) ∧
    exam_question (some (ExamState.mk [7] 0 300 [])) (-1) false
        (QForm.mk none false false false) [] =
      (QResp.toResult, some (ExamState.mk [7] 0 300 [])) :=
  ⟨Or.inl (by norm_num),
    exam_question_out_of_range_redirects_to_result _ _ _ _ _
      (Or.inl (by norm_num))⟩

/-- C5: scoring is one-time and terminal: `exam_result` always leaves the
session empty (`session.pop`), a second result request then finds no session,
redirects to the dashboard and writes no second attempt, and any navigation
request likewise finds no session and redirects to setup. -/
theorem exam_result_discards_session_and_is_one_time (sess : Option ExamState)
    (bank bank₂ : List MCQ) (index : Int) (isPost : Bool) (form : QForm) :
    (exam_result sess bank).2.1 = none ∧
    exam_result ((exam_result sess bank).2.1) bank₂ =
      (RResp.toDashboard, none, none) ∧
    exam_question ((exam_result sess bank).2.1) index isPost form bank₂ =
      (QResp.toSetup, none) := by
  have h : (exam_result sess bank).2.1 = none := by
    cases sess with
    | none => rfl
    | some exam =>
      simp only [exam_result]
      split <;> rfl
  refine ⟨h, ?_, ?_⟩ <;> rw [h] <;> rfl

/-- C6: if the eligible set is empty (subject filter matches zero questions),
`exam_setup` fails with the no-questions error and the session store is left
unchanged. -/
theorem exam_setup_empty_eligible_error_keeps_session (form : SetupForm)
    (bank : List MCQ) (shuffle : List Nat → List Nat) (now : Nat)
    (sess : Option ExamState) (h : eligibleIds form.subjects bank = []) :
    exam_setup form bank shuffle now sess = (SetupResp.setupError, sess) := by
  simp [exam_setup, h]

/-- Witness for C6: one question in subject 1 while subject 2 is selected. -/
theorem exam_setup_empty_eligible_error_keeps_session_witness :
    eligibleIds [2] [MCQ.mk 1 1 "q" "a" "b" "c" "d" "A"] = [] ∧
    exam_setup (SetupForm.mk [2] "random" 10 15)
        [MCQ.mk 1 1 "q" "a" "b" "c" "d" "A"] (fun l => l) 0 none =
      (SetupResp.setupError, none) :=
  ⟨by decide,
    exam_setup_empty_eligible_error_keeps_session _ _ _ _ _ (by decide)⟩

/-- C9: the `mode` distinction in `exam_setup` is a no-op: with the same
inputs and the same random source, `mode = "progress"` and `mode = "random"`
produce identical results (both shuffle once, identically). -/
theorem exam_setup_mode_no_op (subjects : List Nat) (count time_limit : Int)
    (bank : List MCQ) (shuffle : List Nat → List Nat) (now : Nat)
    (sess : Option ExamState) :
    exam_setup (SetupForm.mk subjects "progress" count time_limit) bank
        shuffle now sess =
      exam_setup (SetupForm.mk subjects "random" count time_limit) bank
        shuffle now sess := by
  simp [exam_setup]

/-- C7: a POST at an in-range index overwrites any prior answer for that
position's question: recording "A" then "C" leaves only "C" bound to the
question's key, and scoring then compares exactly "C" with the correct
label. -/
theorem exam_question_answer_overwrite (exam : ExamState) (index : Int)
    (bank bank₂ : List MCQ) (f₁ f₂ : QForm)
    (h0 : 0 ≤ index) (h1 : index < (exam.question_ids.length : Int))
    (_ha : f₁.answer = some "A") (hc : f₂.answer = some "C") :
    ∃ e₂ : ExamState,
      (exam_question ((exam_question (some exam) index true f₁ bank).2)
          index true f₂ bank₂).2 = some e₂ ∧
      dictGet e₂.answers (toString (exam.question_ids.getD index.toNat 0)) =
        some (some "C") ∧
      ∀ row : MCQ, row.id = exam.question_ids.getD index.toNat 0 →
        isCorrectRow e₂.answers row =
          decide ((some "C" : Option String) = some row.correct_option) := by
  rw [exam_question_post_state exam index f₁ bank h0 h1]
  refine ⟨_, exam_question_post_state _ index f₂ bank₂ h0 h1, ?_, ?_⟩
  · simp [dictGet_dictInsert_self, hc]
  · intro row hrow
    simp [isCorrectRow, hrow, dictGet_dictInsert_self, hc]

/-- Witness for C7: a two-question exam, answering index 0 with "A" and then
with "C"; only "C" remains and it matches a correct label "C". -/
theorem exam_question_answer_overwrite_witness :
    (0 : Int) ≤ 0 ∧
    ((0 : Int) < ((ExamState.mk [5, 6] 0 300 []).question_ids.length : Int)) ∧
    (QForm.mk (some "A") true false false).answer = some "A" ∧
    (QForm.mk (some "C") false false true).answer = some "C" ∧
    ∃ e₂ : ExamState,
      (exam_question
          ((exam_question (some (ExamState.mk [5, 6] 0 300 [])) 0 true
              (QForm.mk (some "A") true false false) []).2)
          0 true (QForm.mk (some "C") false false true) []).2 = some e₂ ∧
      dictGet e₂.answers
          (toString ((ExamState.mk [5, 6] 0 300 []).question_ids.getD
            (0 : Int).toNat 0)) = some (some "C") ∧
      ∀ row : MCQ,
        row.id = (ExamState.mk [5, 6] 0 300 []).question_ids.getD
          (0 : Int).toNat 0 →
        isCorrectRow e₂.answers row =
          decide ((some "C" : Option String) = some row.correct_option) :=
  ⟨le_refl 0, by norm_num, rfl, rfl,
    exam_question_answer_overwrite _ _ _ _ _ _ (le_refl 0) (by norm_num)
      rfl rfl⟩

/-- C8: the created session's time budget is `max(requested, 5) * 60` seconds:
exactly 300 when the requested minutes are at most 5, else `requested * 60`
with no upper bound. -/
theorem exam_setup_time_limit_clamp (form : SetupForm) (bank : List MCQ)
    (shuffle : List Nat → List Nat) (now : Nat) (sess : Option ExamState)
    (h : eligibleIds form.subjects bank ≠ []) :
    ∃ st : ExamState, (exam_setup form bank shuffle now sess).2 = some st ∧
      (form.time_limit ≤ 5 → st.time_limit = 300) ∧
      (5 < form.time_limit → st.time_limit = form.time_limit * 60) := by
  refine ⟨{ question_ids :=
              pySlice (shuffle (eligibleIds form.subjects bank))
                (min form.count 100)
            start_time := now
            time_limit := max form.time_limit 5 * 60
            answers := [] }, ?_, ?_, ?_⟩
  · simp [exam_setup, h]
  · intro hle
    have hm : max form.time_limit 5 = 5 := max_eq_right hle
    simp [hm]
  · intro hgt
    have hm : max form.time_limit 5 = form.time_limit := max_eq_left hgt.le
    simp [hm]

/-- Witness for C8: requesting 3 minutes yields a 300-second budget. -/
theorem exam_setup_time_limit_clamp_witness :
    eligibleIds [] [MCQ.mk 1 1 "q" "a" "b" "c" "d" "A"] ≠ [] ∧
    ∃ st : ExamState,
      (exam_setup (SetupForm.mk [] "random" 10 3)
          [MCQ.mk 1 1 "q" "a" "b" "c" "d" "A"] (fun l => l) 0 none).2 =
        some st ∧
      ((SetupForm.mk [] "random" 10 3).time_limit ≤ 5 → st.time_limit = 300) ∧
      (5 < (SetupForm.mk [] "random" 10 3).time_limit →
        st.time_limit = (SetupForm.mk [] "random" 10 3).time_limit * 60) :=
  ⟨by decide, exam_setup_time_limit_clamp _ _ _ _ _ (by decide)⟩

/-- C10: a POST at an in-range index with no `answer` field stores `None` for
that question, overwriting any previous answer, and that stored `None` is
counted incorrect at scoring (it never equals the correct label). -/
theorem exam_question_absent_answer_stores_none (exam : ExamState)
    (index : Int) (bank : List MCQ) (form : QForm)
    (h0 : 0 ≤ index) (h1 : index < (exam.question_ids.length : Int))
    (hans : form.answer = none) :
    ∃ e' : ExamState,
      (exam_question (some exam) index true form bank).2 = some e' ∧
      dictGet e'.answers (toString (exam.question_ids.getD index.toNat 0)) =
        some none ∧
      ∀ row : MCQ, row.id = exam.question_ids.getD index.toNat 0 →
        isCorrectRow e'.answers row = false := by
  refine ⟨_, exam_question_post_state exam index form bank h0 h1, ?_, ?_⟩
  · simp [dictGet_dictInsert_self, hans]
  · intro row hrow
    simp [isCorrectRow, hrow, dictGet_dictInsert_self, hans]

/-- Witness for C10: posting a bare "next" at index 0 (no answer field)
overwrites the earlier "B" with `None`, which scores as incorrect. -/
theorem exam_question_absent_answer_stores_none_witness :
    (0 : Int) ≤ 0 ∧
    ((0 : Int) <
      ((ExamState.mk [5] 0 300 [("5", some "B")]).question_ids.length : Int)) ∧
    (QForm.mk none true false false).answer = none ∧
    ∃ e' : ExamState,
      (exam_question (some (ExamState.mk [5] 0 300 [("5", some "B")])) 0 true
          (QForm.mk none true false false) []).2 = some e' ∧
      dictGet e'.answers
          (toString ((ExamState.mk [5] 0 300 [("5", some "B")]).question_ids.getD
            (0 : Int).toNat 0)) = some none ∧
      ∀ row : MCQ,
        row.id = (ExamState.mk [5] 0 300 [("5", some "B")]).question_ids.getD
          (0 : Int).toNat 0 →
        isCorrectRow e'.answers row = false :=
  ⟨le_refl 0, by norm_num, rfl,
    exam_question_absent_answer_stores_none _ _ _ _ (le_refl 0) (by norm_num)
      rfl⟩

/-- C1 counterexample: a POST with `count = 0` still creates a session, and
its `questionOrder` is empty — `1 ≤ len(questionOrder)` fails, so the bound
cannot hold for every session-creating call. -/
theorem exam_setup_zero_count_creates_empty_session :
    exam_setup (SetupForm.mk [] "random" 0 15)
        [MCQ.mk 1 1 "q" "a" "b" "c" "d" "A"] (fun l => l) 0 none =
      (SetupResp.startExam, some (ExamState.mk [] 0 900 [])) ∧
    ¬ (1 ≤ (ExamState.mk [] 0 900 []).question_ids.length) := by
  constructor
  · rfl
  · decide

/-- C1 (amended to requested counts ≥ 1): for every `exam_setup` POST that
creates a session with a positive requested count, a duplicate-free eligible
pool, and a shuffle that permutes it, the created `questionOrder` satisfies
`1 ≤ len ≤ min(100, requestedCount)`, `len ≤ |eligible|`, has no duplicates,
and draws only from the eligible identifiers. -/
theorem exam_setup_questionOrder_bounds (form : SetupForm) (bank : List MCQ)
    (shuffle : List Nat → List Nat) (now : Nat) (sess : Option ExamState)
    (hperm : (shuffle (eligibleIds form.subjects bank)).Perm
      (eligibleIds form.subjects bank))
    (hcount : 1 ≤ form.count)
    (hnodup : (eligibleIds form.subjects bank).Nodup)
    (hne : eligibleIds form.subjects bank ≠ []) :
    ∃ st : ExamState, (exam_setup form bank shuffle now sess).2 = some st ∧
      1 ≤ st.question_ids.length ∧
      (st.question_ids.length : Int) ≤ min 100 form.count ∧
      st.question_ids.length ≤ (eligibleIds form.subjects bank).length ∧
      st.question_ids.Nodup ∧
      ∀ q ∈ st.question_ids, q ∈ eligibleIds form.subjects bank := by
  have hlimit : (1 : Int) ≤ min form.count 100 := le_min hcount (by norm_num)
  have hlen : (shuffle (eligibleIds form.subjects bank)).length =
      (eligibleIds form.subjects bank).length := hperm.length_eq
  have hidspos : 0 < (eligibleIds form.subjects bank).length :=
    List.length_pos.mpr hne
  have hslice : pySlice (shuffle (eligibleIds form.subjects bank))
      (min form.count 100) =
      (shuffle (eligibleIds form.subjects bank)).take
        (min form.count 100).toNat := by
    unfold pySlice
    rw [if_pos (by omega)]
  refine ⟨{ question_ids :=
              pySlice (shuffle (eligibleIds form.subjects bank))
                (min form.count 100)
            start_time := now
            time_limit := max form.time_limit 5 * 60
            answers := [] }, by simp [exam_setup, hne], ?_, ?_, ?_, ?_, ?_⟩
  · rw [hslice]
    simp only [List.length_take]
    omega
  · rw [hslice]
    simp only [List.length_take]
    have h1 : (min form.count 100).toNat ⊓ (shuffle
        (eligibleIds form.subjects bank)).length ≤ (min form.count 100).toNat :=
      min_le_left _ _
    have h2 : ((min form.count 100).toNat : Int) = min form.count 100 :=
      Int.toNat_of_nonneg (by omega)
    rw [min_comm form.count 100] at h2
    omega
  · rw [hslice]
    simp only [List.length_take]
    omega
  · rw [hslice]
    exact (hperm.nodup_iff.mpr hnodup).sublist (List.take_sublist _ _)
  · intro q hq
    rw [hslice] at hq
    exact hperm.mem_iff.mp (List.take_subset _ _ hq)

/-- Witness for C1 (amended): two eligible questions, requested count 3 with
the identity shuffle. -/
theorem exam_setup_questionOrder_bounds_witness :
    (((fun l => l) (eligibleIds [] [MCQ.mk 1 1 "q" "a" "b" "c" "d" "A",
        MCQ.mk 2 1 "q2" "a" "b" "c" "d" "B"]) : List Nat).Perm
      (eligibleIds [] [MCQ.mk 1 1 "q" "a" "b" "c" "d" "A",
        MCQ.mk 2 1 "q2" "a" "b" "c" "d" "B"])) ∧
    (1 : Int) ≤ (SetupForm.mk [] "random" 3 15).count ∧
    (eligibleIds [] [MCQ.mk 1 1 "q" "a" "b" "c" "d" "A",
      MCQ.mk 2 1 "q2" "a" "b" "c" "d" "B"]).Nodup ∧
    eligibleIds [] [MCQ.mk 1 1 "q" "a" "b" "c" "d" "A",
      MCQ.mk 2 1 "q2" "a" "b" "c" "d" "B"] ≠ [] ∧
    ∃ st : ExamState,
      (exam_setup (SetupForm.mk [] "random" 3 15)
          [MCQ.mk 1 1 "q" "a" "b" "c" "d" "A",
            MCQ.mk 2 1 "q2" "a" "b" "c" "d" "B"] (fun l => l) 0 none).2 =
        some st ∧
      1 ≤ st.question_ids.length ∧
      (st.question_ids.length : Int) ≤
        min 100 (SetupForm.mk [] "random" 3 15).count ∧
      st.question_ids.length ≤
        (eligibleIds [] [MCQ.mk 1 1 "q" "a" "b" "c" "d" "A",
          MCQ.mk 2 1 "q2" "a" "b" "c" "d" "B"]).length ∧
      st.question_ids.Nodup ∧
      ∀ q ∈ st.question_ids,
        q ∈ eligibleIds [] [MCQ.mk 1 1 "q" "a" "b" "c" "d" "A",
          MCQ.mk 2 1 "q2" "a" "b" "c" "d" "B"] :=
  ⟨by decide, by norm_num, by decide, by decide,
    exam_setup_questionOrder_bounds _ _ _ _ _ (by decide) (by norm_num)
      (by decide) (by decide)⟩

theorem filter_mem_length_le (bank : List MCQ) (qids : List Nat)
    (hnodup : (bank.map (fun m => m.id)).Nodup) :
    (bank.filter (fun m => decide (m.id ∈ qids))).length ≤ qids.length := by
  have hsub : (bank.filter (fun m => decide (m.id ∈ qids))).Sublist bank :=
    List.filter_sublist _
  have hmap : ((bank.filter (fun m => decide (m.id ∈ qids))).map
      (fun m => m.id)).Sublist (bank.map (fun m => m.id)) :=
    hsub.map (fun m => m.id)
  have hnd : ((bank.filter (fun m => decide (m.id ∈ qids))).map
      (fun m => m.id)).Nodup := hnodup.sublist hmap
  have hss : ((bank.filter (fun m => decide (m.id ∈ qids))).map
      (fun m => m.id)) ⊆ qids := by
    intro x hx
    simp only [List.mem_map, List.mem_filter, decide_eq_true_eq] at hx
    obtain ⟨m, ⟨_, hid⟩, rfl⟩ := hx
    exact hid
  have := (List.subperm_of_subset hnd hss).length_le
  rwa [List.length_map] at this

theorem accuracy_bounds (c t : Nat) (hct : c ≤ t) (ht : 1 ≤ t) :
    0 ≤ roundHalfEven ((c : ℚ) / ((max t 1 : Nat) : ℚ) * 100) ∧
    roundHalfEven ((c : ℚ) / ((max t 1 : Nat) : ℚ) * 100) ≤ 100 := by
  have hmax : max t 1 = t := max_eq_left ht
  rw [hmax]
  have ht0 : (0 : ℚ) < (t : ℚ) := by exact_mod_cast ht
  have hq0 : 0 ≤ (c : ℚ) / (t : ℚ) * 100 := by positivity
  have hq1 : (c : ℚ) / (t : ℚ) * 100 ≤ 100 := by
    have hle : (c : ℚ) / (t : ℚ) ≤ 1 := (div_le_one ht0).mpr (by exact_mod_cast hct)
    nlinarith
  refine ⟨roundHalfEven_nonneg _ hq0, ?_⟩
  exact roundHalfEven_le_of_le _ 100 (by push_cast; linarith)

/-- C2: every `exam_attempts` row written by `exam_result` satisfies
`correct + incorrect = total` and `0 ≤ accuracy ≤ 100`, for every session
state and answer mapping (the bank's primary keys being distinct), including
answers to questions no longer present in the bank at scoring time. -/
theorem exam_result_attempt_invariants (sess : Option ExamState)
    (bank : List MCQ) (hnodup : (bank.map (fun m => m.id)).Nodup)
    (att : ExamAttempt) (hatt : (exam_result sess bank).2.2 = some att) :
    (att.correct_count : Int) + att.incorrect_count =
      (att.total_questions : Int) ∧
    0 ≤ att.accuracy ∧ att.accuracy ≤ 100 := by
  match sess with
  | none => simp [exam_result] at hatt
  | some exam =>
    by_cases hq : exam.question_ids = []
    · simp [exam_result, hq] at hatt
    · obtain ⟨t', c', i', a'⟩ := att
      simp only [exam_result, if_neg hq, Option.some.injEq,
        ExamAttempt.mk.injEq] at hatt
      obtain ⟨h1, h2, h3, h4⟩ := hatt
      have hct : (bank.filter (fun m => decide (m.id ∈ exam.question_ids))).countP
          (fun row => isCorrectRow exam.answers row) ≤
          exam.question_ids.length :=
        le_trans (List.countP_le_length _) (filter_mem_length_le _ _ hnodup)
      have ht : 1 ≤ exam.question_ids.length :=
        List.length_pos.mpr hq
      have hacc := accuracy_bounds
        ((bank.filter (fun m => decide (m.id ∈ exam.question_ids))).countP
          (fun row => isCorrectRow exam.answers row))
        exam.question_ids.length hct ht
      subst h1 h2 h3 h4
      dsimp only
      exact ⟨by omega, hacc.1, hacc.2⟩

/-- Witness for C2: a one-question exam left unanswered scores
`⟨total 1, correct 0, incorrect 1, accuracy 0⟩`, satisfying the invariants. -/
theorem exam_result_attempt_invariants_witness :
    (([MCQ.mk 1 1 "q" "a" "b" "c" "d" "A"].map (fun m => m.id)).Nodup) ∧
    ((exam_result (some (ExamState.mk [1] 0 300 []))
        [MCQ.mk 1 1 "q" "a" "b" "c" "d" "A"]).2.2 =
      some (ExamAttempt.mk 1 0 1 0)) ∧
    (((ExamAttempt.mk 1 0 1 0).correct_count : Int) +
        (ExamAttempt.mk 1 0 1 0).incorrect_count =
      ((ExamAttempt.mk 1 0 1 0).total_questions : Int)) ∧
    0 ≤ (ExamAttempt.mk 1 0 1 0).accuracy ∧
    (ExamAttempt.mk 1 0 1 0).accuracy ≤ 100 := by
  have hatt : (exam_result (some (ExamState.mk [1] 0 300 []))
      [MCQ.mk 1 1 "q" "a" "b" "c" "d" "A"]).2.2 =
      some (ExamAttempt.mk 1 0 1 0) := by
    simp only [exam_result]
    rw [if_neg (by decide)]
    simp only [Option.some.injEq, ExamAttempt.mk.injEq]
    refine ⟨by decide, by decide, by decide, ?_⟩
    rw [show (List.countP (fun row => isCorrectRow [] row)
      (List.filter (fun m => decide (m.id ∈ [1]))
        [MCQ.mk 1 1 "q" "a" "b" "c" "d" "A"])) = 0 from by decide]
    rw [show (((0 : Nat) : ℚ) / ((([1].length ⊔ 1 : Nat)) : ℚ) * 100) = 0 from by
      norm_num]
    exact roundHalfEven_eq_of_lt_half 0 0 (by norm_num) (by norm_num)
  exact ⟨by decide, hatt,
    exam_result_attempt_invariants _ _ (by decide) _ hatt⟩

/-- C3: the persisted accuracy is `round(100 * correct / max(total, 1))` with
round-half-to-even, and in particular `total = 3, correct = 1` gives 33 while
`total = 3, correct = 2` gives 67. -/
theorem exam_result_accuracy_round_half_even (exam : ExamState)
    (bank : List MCQ) (att : ExamAttempt)
    (hatt : (exam_result (some exam) bank).2.2 = some att) :
    att.accuracy =
      roundHalfEven (100 * (att.correct_count : ℚ) /
        max (att.total_questions : ℚ) 1) ∧
    (att.total_questions = 3 → att.correct_count = 1 → att.accuracy = 33) ∧
    (att.total_questions = 3 → att.correct_count = 2 → att.accuracy = 67) := by
  by_cases hq : exam.question_ids = []
  · simp [exam_result, hq] at hatt
  · obtain ⟨t', c', i', a'⟩ := att
    simp only [exam_result, if_neg hq, Option.some.injEq,
      ExamAttempt.mk.injEq] at hatt
    obtain ⟨h1, h2, h3, h4⟩ := hatt
    subst h1 h2 h3 h4
    dsimp only
    refine ⟨?_, ?_, ?_⟩
    · congr 1
      push_cast [Nat.cast_max]
      ring
    · intro ht hc
      rw [hc, ht]
      rw [show (((1 : Nat) : ℚ) / (((3 ⊔ 1 : Nat)) : ℚ) * 100) = 100/3 from by
        norm_num]
      exact roundHalfEven_eq_of_lt_half (100/3) 33 (by norm_num) (by norm_num)
    · intro ht hc
      rw [hc, ht]
      rw [show (((2 : Nat) : ℚ) / (((3 ⊔ 1 : Nat)) : ℚ) * 100) = 200/3 from by
        norm_num]
      rw [roundHalfEven_eq_add_one_of_half_lt (200/3) 66 (by norm_num)
        (by norm_num)]
      norm_num

/-- Witness for C3: three questions with correct label "A", one answered
correctly — the persisted accuracy is 33. -/
theorem exam_result_accuracy_round_half_even_witness :
    ((exam_result (some (ExamState.mk [1, 2, 3] 0 900 [("1", some "A")]))
        [MCQ.mk 1 1 "q1" "a" "b" "c" "d" "A",
          MCQ.mk 2 1 "q2" "a" "b" "c" "d" "A",
          MCQ.mk 3 1 "q3" "a" "b" "c" "d" "A"]).2.2 =
      some (ExamAttempt.mk 3 1 2 33)) ∧
    ((ExamAttempt.mk 3 1 2 33).accuracy =
      roundHalfEven (100 * ((ExamAttempt.mk 3 1 2 33).correct_count : ℚ) /
        max ((ExamAttempt.mk 3 1 2 33).total_questions : ℚ) 1) ∧
    ((ExamAttempt.mk 3 1 2 33).total_questions = 3 →
      (ExamAttempt.mk 3 1 2 33).correct_count = 1 →
      (ExamAttempt.mk 3 1 2 33).accuracy = 33) ∧
    ((ExamAttempt.mk 3 1 2 33).total_questions = 3 →
      (ExamAttempt.mk 3 1 2 33).correct_count = 2 →
      (ExamAttempt.mk 3 1 2 33).accuracy = 67)) := by
  have hatt : (exam_result (some (ExamState.mk [1, 2, 3] 0 900
      [("1", some "A")]))
      [MCQ.mk 1 1 "q1" "a" "b" "c" "d" "A",
        MCQ.mk 2 1 "q2" "a" "b" "c" "d" "A",
        MCQ.mk 3 1 "q3" "a" "b" "c" "d" "A"]).2.2 =
      some (ExamAttempt.mk 3 1 2 33) := by
    simp only [exam_result]
    rw [if_neg (by decide)]
    simp only [Option.some.injEq, ExamAttempt.mk.injEq]
    refine ⟨by decide, by decide, by decide, ?_⟩
    rw [show (List.countP
      (fun row => isCorrectRow [("1", some "A")] row)
      (List.filter (fun m => decide (m.id ∈ [1, 2, 3]))
        [MCQ.mk 1 1 "q1" "a" "b" "c" "d" "A",
          MCQ.mk 2 1 "q2" "a" "b" "c" "d" "A",
          MCQ.mk 3 1 "q3" "a" "b" "c" "d" "A"])) = 1 from by decide]
    rw [show (((1 : Nat) : ℚ) / ((([1, 2, 3].length ⊔ 1 : Nat)) : ℚ) * 100) =
      100/3 from by norm_num]
    exact roundHalfEven_eq_of_lt_half (100/3) 33 (by norm_num) (by norm_num)
  exact ⟨hatt, exam_result_accuracy_round_half_even _ _ _ hatt⟩
